import Mathlib

/-!
Verification of the error-tagging and argument-injection layer of the
graphql-stitch repository, against its natural-language specification.

Part 1 embeds the error utilities module (`relocatedError`,
`createMergedResult`, `getErrorsFromParent`, `combineErrors`).
Part 2 embeds `AddArgumentsAsVariablesTransform` (`addVariablesToRootField`,
`generateVariableName`, `typeToAst`, `serializeArgumentValue`).

Modelling conventions for the JavaScript substrate:
* `undefined`/`null`-able fields become `Option`; JS truthiness of a
  possibly-`undefined` array value is `Option.isSome` (an array, even empty,
  is truthy in JS).
* JS objects are modelled as insertion-ordered association lists with
  string keys; property writes keep the position of an existing key and
  append new keys, matching JS own-property order for non-integer-like keys.
* Object identity (needed by the frame claims) is modelled by an `id : Nat`
  tag on object values: code that mutates an object in place and returns it
  is embedded as returning an object with the same `id`; code that allocates
  a fresh object yields a node whose identity is not tracked (`id := 0`).
* The three tagging keys of the module (`MERGED_NULL_SYMBOL`,
  `SUBSCHEMAS_SYMBOL`, `ERROR_SYMBOL`) are JS symbols, disjoint from every
  string property key, so they are modelled as three dedicated fields of an
  object node (`mergedNull`, `errTag`, `subTag`) rather than entries of the
  string-keyed property list.
-/

set_option autoImplicit false

/-- A segment of a GraphQL error `path`: a response key (string) or a list
index (number). -/
inductive PathSeg where
  | key (s : String)
  | index (n : Nat)
deriving DecidableEq, Repr

/-- Opaque carrier for GraphQL AST nodes attached to errors; the embedded
module never inspects their contents. -/
structure ASTNode where
  tag : Nat
deriving DecidableEq, Repr

/-- Opaque carrier for a GraphQL `Source`; never inspected by the module. -/
structure SourceRef where
  tag : Nat
deriving DecidableEq, Repr

/-- Opaque carrier for a GraphQLError `extensions` object; never inspected
by the module. -/
structure Extensions where
  tag : Nat
deriving DecidableEq, Repr

/-- Opaque carrier for a `GraphQLSchema | SubschemaConfig` element of a
subschemas list; never inspected by the module. -/
structure Subschema where
  tag : Nat
deriving DecidableEq, Repr

/-- A GraphQLError value, with the fields the embedded module reads or
writes.  The `originalError` slot of graphql-js is kept only for provenance
and is never read back by this repository, so it is not stored; its single
constructor-time effect (defaulting `extensions`) is modelled in
`mkGraphQLError`. -/
structure JSError where
  message : String
  nodes : Option (List ASTNode)
  source : Option SourceRef
  positions : Option (List Nat)
  path : Option (List PathSeg)
  extensions : Option Extensions
deriving DecidableEq, Repr

/-- The graphql-js `GraphQLError` constructor (external collaborator, spec
section 6), restricted to the behaviour this repository relies on: each field
is stored as passed, except that when `extensions` is not supplied it
defaults to the `extensions` of the supplied `originalError`
(`extensions || originalError && originalError.extensions` in graphql-js). -/
def mkGraphQLError (message : String) (nodes : Option (List ASTNode))
    (source : Option SourceRef) (positions : Option (List Nat))
    (path : Option (List PathSeg)) (originalError : Option JSError)
    (extensions : Option Extensions) : JSError :=
  { message := message
    nodes := nodes
    source := source
    positions := positions
    path := path
    extensions :=
      match extensions with
      | some e => some e
      | none => originalError.bind (fun oe => oe.extensions) }

/-- Embedding of `relocatedError(originalError, nodes, path)`.
The source branches on `Array.isArray(originalError.path)`; in the
path-carrying branch it rebuilds the error with `path ? path :
originalError.path` (an array, even empty, is truthy) and the original's own
`nodes`/`extensions`; otherwise it rebuilds with `originalError.nodes ||
nodes` and the new `path`, passing `originalError` through so the
constructor inherits its `extensions`.  The input error is a read-only
argument (the source never assigns into it). -/
def relocatedError (originalError : JSError) (nodes : Option (List ASTNode))
    (path : Option (List PathSeg)) : JSError :=
  match originalError.path with
  | some origPath =>
      mkGraphQLError originalError.message originalError.nodes
        originalError.source originalError.positions
        (match path with
         | some p => some p
         | none => some origPath)
        (some originalError) originalError.extensions
  | none =>
      mkGraphQLError originalError.message
        (match originalError.nodes with
         | some ns => some ns
         | none => nodes)
        originalError.source originalError.positions path
        (some originalError) none

/-- A JS primitive (non-object, non-null) value. -/
inductive PrimValue where
  | str (s : String)
  | num (n : Int)
  | boolean (b : Bool)
  | other (tag : Nat)
deriving DecidableEq, Repr

/-- A JavaScript runtime value: `null`, `undefined`, a non-object primitive,
an array, or a plain object.  An object node carries its identity tag, its
string-keyed properties, and the three symbol-keyed tagging slots of the
error module (see the header notes). -/
inductive JSValue where
  | null : JSValue
  | undefined : JSValue
  | prim (p : PrimValue) : JSValue
  | arr (items : List JSValue) : JSValue
  | obj (id : Nat) (props : List (String × JSValue)) (mergedNull : Bool)
      (errTag : Option (List JSError)) (subTag : Option (List Subschema)) : JSValue
deriving Repr

/-- Base-10 digits of `n`, least significant first, via structural fuel
recursion (so that concrete values reduce definitionally); `natDigitsRev n n`
agrees with `Nat.digits 10 n` (`natDigitsRev_eq_digits`). -/
def natDigitsRev : Nat → Nat → List Nat
  | 0, _ => []
  | fuel + 1, n => if n = 0 then [] else n % 10 :: natDigitsRev fuel (n / 10)

/-- Decimal rendering of a natural number, as JS `String(n)` renders an
integer index (used both for property-key coercion of array indices and for
the `_v{counter}_{argName}` variable-name template). -/
def natToString (n : Nat) : String :=
  if n = 0 then "0" else String.mk (((natDigitsRev n n).map Nat.digitChar).reverse)

/-- JS property-key coercion `String(seg)` of a path segment. -/
def segPropKey : PathSeg → String
  | .key s => s
  | .index n => natToString n

/-- Association-list read with default, modelling `dict[k] || d` /
`dict[k] === undefined ? d : dict[k]` on a JS object used as a dictionary. -/
def lookupD {α : Type} : List (String × α) → String → α → α
  | [], _, d => d
  | (k', v') :: rest, k, d => if k' = k then v' else lookupD rest k d

/-- Association-list read, modelling `dict[k]` (`none` = `undefined`). -/
def lookupOpt {α : Type} : List (String × α) → String → Option α
  | [], _ => none
  | (k', v') :: rest, k => if k' = k then some v' else lookupOpt rest k

/-- Association-list write `dict[k] = v`: overwrites an existing key in
place, else appends — JS own-property insertion order for string keys. -/
def dictSet {α : Type} : List (String × α) → String → α → List (String × α)
  | [], k, v => [(k, v)]
  | (k', v') :: rest, k, v =>
      if k' = k then (k, v) :: rest else (k', v') :: dictSet rest k v

/-- The error relocation applied at every tagging site of
`createMergedResult`:
`relocatedError(error, error.nodes, error.path ? error.path.slice(1) : undefined)`. -/
def relocOne (error : JSError) : JSError :=
  relocatedError error error.nodes (error.path.map (fun p => p.drop 1))

/-- The `byIndex` grouping key of an error in the array branch:
`error.path[1]` coerced to a JS property key (`"undefined"` when the path
is shorter than two segments); `none` models the early `return` for a
pathless error. -/
def errIndexKey (error : JSError) : Option String :=
  match error.path with
  | none => none
  | some p =>
      some (match p.get? 1 with
            | some seg => segPropKey seg
            | none => "undefined")

/-- One iteration of the `errors.forEach` grouping loop of the array branch:
a pathless error is skipped, otherwise the relocated error is pushed onto
the bucket of its `byIndex` key. -/
def byIndexStep (byIndex : List (String × List JSError)) (error : JSError) :
    List (String × List JSError) :=
  match errIndexKey error with
  | none => byIndex
  | some k => dictSet byIndex k (lookupD byIndex k [] ++ [relocOne error])

/-- The `byIndex` dictionary of the array branch of `createMergedResult`:
a fold over `errors` pushing each relocated error onto the bucket of its
second path segment's property key. -/
def mkByIndex (errors : List JSError) : List (String × List JSError) :=
  errors.foldl byIndexStep []

mutual

/-- Embedding of `createMergedResult(result, errors, subschemas)`.
`null`/`undefined` raw values become a fresh `{[MERGED_NULL_SYMBOL]: true}`
marker object which then falls through to the object tagging; non-object
primitives are returned unchanged; arrays redistribute the errors through
`byIndex` and recurse element-wise (`byIndex[index]` missing means the
callee's `errors = []` default applies); objects are tagged in place —
same identity, properties untouched, `ERROR_SYMBOL` set to the relocated
errors and `SUBSCHEMAS_SYMBOL` set to the subschemas list. -/
def createMergedResult (result : JSValue) (errors : List JSError)
    (subschemas : List Subschema) : JSValue :=
  match result with
  | .null => .obj 0 [] true (some (errors.map relocOne)) (some subschemas)
  | .undefined => .obj 0 [] true (some (errors.map relocOne)) (some subschemas)
  | .prim p => .prim p
  | .arr items => .arr (mergeItems items (mkByIndex errors) subschemas 0)
  | .obj i props mn _ _ =>
      .obj i props mn (some (errors.map relocOne)) (some subschemas)

/-- The `result.map((item, index) => createMergedResult(item,
byIndex[index], subschemas))` loop of the array branch. -/
def mergeItems (items : List JSValue) (byIndex : List (String × List JSError))
    (subschemas : List Subschema) (index : Nat) : List JSValue :=
  match items with
  | [] => []
  | item :: rest =>
      createMergedResult item (lookupD byIndex (natToString index) []) subschemas
        :: mergeItems rest byIndex subschemas (index + 1)

end

/-- The `ERROR_SYMBOL` slot of a value (`object && object[ERROR_SYMBOL]`;
`none` = absent/`undefined`, which is also what a non-object yields). -/
def errTagOf : JSValue → Option (List JSError)
  | .obj _ _ _ et _ => et
  | _ => none

/-- The `SUBSCHEMAS_SYMBOL` slot of a value. -/
def subTagOf : JSValue → Option (List Subschema)
  | .obj _ _ _ _ st => st
  | _ => none

/-- The `MERGED_NULL_SYMBOL` slot of a value. -/
def mergedNullOf : JSValue → Bool
  | .obj _ _ mn _ _ => mn
  | _ => false

/-- The identity tag of an object value. -/
def objIdOf : JSValue → Option Nat
  | .obj i _ _ _ _ => some i
  | _ => none

/-- The string-keyed properties of an object value. -/
def propsOf : JSValue → List (String × JSValue)
  | .obj _ props _ _ _ => props
  | _ => []

/-- Embedding of `getSubschemasFromParent(object)`. -/
def getSubschemasFromParent (object : JSValue) : Option (List Subschema) :=
  subTagOf object

/-- Embedding of `isParentProxiedResult(parent)`: truthiness of
`parent && parent[ERROR_SYMBOL]` (an array, even empty, is truthy). -/
def isParentProxiedResult (parent : JSValue) : Bool :=
  (errTagOf parent).isSome

/-- The per-error admission test of `getErrorsFromParent`:
`!error.path || error.path[0] === fieldName`.  An absent path is falsy so
the error is admitted for every field; an empty path array is truthy and
its `[0]` is `undefined`, never strictly equal to a string; a leading index
segment is a number, never strictly equal to a string. -/
def errMatchesField (error : JSError) (fieldName : String) : Bool :=
  match error.path with
  | none => true
  | some [] => false
  | some (seg :: _) =>
      match seg with
      | .key s => s = fieldName
      | .index _ => false

/-- Embedding of `getErrorsFromParent(object, fieldName)`: `none` models the
`null` sentinel returned when the value carries no (array-valued) error tag;
otherwise the `for`-loop pushing the admitted errors in order. -/
def getErrorsFromParent (object : JSValue) (fieldName : String) :
    Option (List JSError) :=
  match errTagOf object with
  | none => none
  | some errors =>
      some (errors.foldl
        (fun childrenErrors error =>
          if errMatchesField error fieldName then childrenErrors ++ [error]
          else childrenErrors)
        [])

/-- Result type of `combineErrors`: a `GraphQLError` (single-error case) or a
`CombinedError` — a plain `Error` subclass carrying the member list. -/
inductive CombinedOrSingle where
  | gqlError (e : JSError)
  | combined (message : String) (errors : List JSError)
deriving DecidableEq, Repr

/-- JS `Array.prototype.join(sep)`: empty list renders as the empty string,
otherwise the elements separated by `sep`. -/
def joinSep (sep : String) : List String → String
  | [] => ""
  | [m] => m
  | m :: rest => m ++ sep ++ joinSep sep rest

/-- Embedding of `combineErrors(errors)`: one error is copied through the
`GraphQLError` constructor field by field; any other length yields a
`CombinedError` whose message is the newline join of the member messages
and whose `errors` field is the input list itself. -/
def combineErrors : List JSError → CombinedOrSingle
  | [e] =>
      .gqlError (mkGraphQLError e.message e.nodes e.source e.positions e.path
        none e.extensions)
  | errors =>
      .combined (joinSep "\n" (errors.map (fun e => e.message))) errors

/-!
Part 2: `AddArgumentsAsVariablesTransform` — the document transform that
replaces matched field arguments with freshly generated variables.
-/

mutual

/-- Structural equality on JS values, used to model the SameValueZero lookup
of graphql-js enum serialization (object identity is approximated by the
structural comparison, identity tags included; enum internal values are
primitives in practice). -/
def jsValueBEq : JSValue → JSValue → Bool
  | .null, .null => true
  | .undefined, .undefined => true
  | .prim p, .prim q => p == q
  | .arr xs, .arr ys => jsValueListBEq xs ys
  | .obj i ps mn et st, .obj j qs mn' et' st' =>
      i == j && jsPropsBEq ps qs && mn == mn' && et == et' && st == st'
  | _, _ => false

/-- Elementwise `jsValueBEq` on lists. -/
def jsValueListBEq : List JSValue → List JSValue → Bool
  | [], [] => true
  | x :: xs, y :: ys => jsValueBEq x y && jsValueListBEq xs ys
  | _, _ => false

/-- Elementwise `jsValueBEq` on property lists. -/
def jsPropsBEq : List (String × JSValue) → List (String × JSValue) → Bool
  | [], [] => true
  | (k, v) :: xs, (k', v') :: ys => k == k' && jsValueBEq v v' && jsPropsBEq xs ys
  | _, _ => false

end

/-- A GraphQL input type as the transform inspects it (`instanceof` cascade
over `GraphQLNonNull` / `GraphQLList` / `GraphQLEnumType` /
`GraphQLScalarType` / `GraphQLInputObjectType`).  An enum carries its
name-to-internal-value table; an input object carries its field types. -/
inductive InputType where
  | scalar (name : String) : InputType
  | enum (name : String) (values : List (String × JSValue)) : InputType
  | inputObject (name : String) (fields : List (String × InputType)) : InputType
  | list (ofType : InputType) : InputType
  | nonNull (ofType : InputType) : InputType

/-- A GraphQL type-reference AST node (`NamedType` / `ListType` /
`NonNullType`). -/
inductive TypeNode where
  | namedType (name : String) : TypeNode
  | listType (t : TypeNode) : TypeNode
  | nonNullType (t : TypeNode) : TypeNode
deriving DecidableEq, Repr

/-- graphql-js `getNullableType`: strips a single `GraphQLNonNull` wrapper. -/
def getNullableType : InputType → InputType
  | .nonNull t => t
  | t => t

/-- Embedding of `typeToAst(type)`: recursively converts NonNull/List/Named
wrappers to the equivalent type-reference AST, throwing
(`Incorrent inner non-null type`) if a non-null wrapper's inner AST shape is
neither list nor named. -/
def typeToAst : InputType → Except String TypeNode
  | .nonNull t =>
      match typeToAst t with
      | .error e => .error e
      | .ok innerType =>
          match innerType with
          | .listType inner => .ok (.nonNullType (.listType inner))
          | .namedType n => .ok (.nonNullType (.namedType n))
          | _ => .error "Incorrent inner non-null type"
  | .list t =>
      match typeToAst t with
      | .error e => .error e
      | .ok inner => .ok (.listType inner)
  | .scalar n => .ok (.namedType n)
  | .enum n _ => .ok (.namedType n)
  | .inputObject n _ => .ok (.namedType n)

mutual

/-- Embedding of `serializeArgumentValue(type, value)`: `null`/`undefined`
values serialize to `null`; otherwise the nullable type directs the
recursion — enums through the enum's serializer (a SameValueZero lookup of
the internal value, throwing when absent), scalars pass through, lists map
elementwise (a non-array value has no `.map`, a JS `TypeError`), input
objects recurse field-wise through the declared field types (an absent
declared field makes `fields[k].type` throw; integer property keys of an
array value are never valid GraphQL input-field names, so a non-empty array
throws the same way, and `Object.keys` of a primitive is empty).  A type
matching no branch falls off the function, returning `undefined`. -/
def serializeArgumentValue (type : InputType) (value : JSValue) :
    Except String JSValue :=
  match value with
  | .null => .ok .null
  | .undefined => .ok .null
  | value =>
      match getNullableType type with
      | .enum _ values =>
          match values.find? (fun nv => jsValueBEq nv.2 value) with
          | some nv => .ok (.prim (.str nv.1))
          | none => .error "Enum cannot represent value"
      | .scalar _ => .ok value
      | .list ofType =>
          match value with
          | .arr xs =>
              match serializeValues ofType xs with
              | .error e => .error e
              | .ok elems => .ok (.arr elems)
          | _ => .error "TypeError: value.map is not a function"
      | .inputObject _ fields =>
          match value with
          | .obj _ props _ _ _ =>
              match serializeFields fields props with
              | .error e => .error e
              | .ok newProps => .ok (.obj 0 newProps false none none)
          | .arr [] => .ok (.obj 0 [] false none none)
          | .arr (_ :: _) =>
              .error "TypeError: cannot read type of undefined input field"
          | _ => .ok (.obj 0 [] false none none)
      | .nonNull _ => .ok .undefined

/-- The `value.map(v => serializeArgumentValue(nullableType.ofType, v))`
loop. -/
def serializeValues (ofType : InputType) (values : List JSValue) :
    Except String (List JSValue) :=
  match values with
  | [] => .ok []
  | v :: rest =>
      match serializeArgumentValue ofType v with
      | .error e => .error e
      | .ok sv =>
          match serializeValues ofType rest with
          | .error e => .error e
          | .ok srest => .ok (sv :: srest)

/-- The `Object.keys(value).reduce(...)` loop: rebuilds the object's own
(string-keyed, necessarily distinct) keys in order, serializing each value
at the declared field type. -/
def serializeFields (fields : List (String × InputType))
    (props : List (String × JSValue)) :
    Except String (List (String × JSValue)) :=
  match props with
  | [] => .ok []
  | (k, v) :: rest =>
      match lookupOpt fields k with
      | none => .error "TypeError: cannot read type of undefined input field"
      | some fieldType =>
          match serializeArgumentValue fieldType v with
          | .error e => .error e
          | .ok sv =>
              match serializeFields fields rest with
              | .error e => .error e
              | .ok srest => .ok ((k, sv) :: srest)

end

/-- The `_v{variableCounter}_{argName}` template of `generateVariableName`. -/
def varNameStr (counter : Nat) (argName : String) : String :=
  "_v" ++ natToString counter ++ "_" ++ argName

/-- The `do { varName = ...; variableCounter++ } while
(existingVariables.indexOf(varName) !== -1)` loop, made structural by an
explicit fuel count.  `generateVariableName` supplies fuel
`existingVariables.length + 1`, enough that the fuel-exhausted base case is
unreachable (lemma `generateVariableName_fresh`: among
`existingVariables.length + 1` successive candidate names at least one is
not taken). -/
def genAux (existingVariables : List String) (argName : String) :
    Nat → Nat → String × Nat
  | counter, 0 => (varNameStr counter argName, counter + 1)
  | counter, fuel + 1 =>
      if varNameStr counter argName ∈ existingVariables then
        genAux existingVariables argName (counter + 1) fuel
      else (varNameStr counter argName, counter + 1)

/-- Embedding of `generateVariableName(argName)` over the per-operation
closure state: returns the generated name together with the advanced
`variableCounter`. -/
def generateVariableName (existingVariables : List String) (argName : String)
    (variableCounter : Nat) : String × Nat :=
  genAux existingVariables argName variableCounter (existingVariables.length + 1)

/-- A GraphQL argument descriptor of a schema field (`GraphQLArgument`). -/
structure GQLArgument where
  name : String
  type : InputType

/-- A schema field as the transform reads it (`field.args`). -/
structure GQLField where
  args : List GQLArgument

/-- A schema object type: its field map (`type.getFields()`). -/
structure GQLObjectType where
  fields : List (String × GQLField)

/-- The target schema: its three root types (each possibly absent). -/
structure GQLSchema where
  queryType : Option GQLObjectType
  mutationType : Option GQLObjectType
  subscriptionType : Option GQLObjectType

/-- The operation kind of an `OperationDefinitionNode`. -/
inductive OpKind where
  | query : OpKind
  | mutation : OpKind
  | subscription : OpKind
deriving DecidableEq, Repr

/-- The root-type selection of the transform: subscription, mutation, else
query. -/
def rootType (targetSchema : GQLSchema) : OpKind → Option GQLObjectType
  | .subscription => targetSchema.subscriptionType
  | .mutation => targetSchema.mutationType
  | .query => targetSchema.queryType

/-- An argument value AST node: a variable reference or an opaque literal. -/
inductive ValueNode where
  | variableNode (name : String) : ValueNode
  | otherValue (tag : Nat) : ValueNode
deriving DecidableEq, Repr

/-- An `ArgumentNode` of a field selection. -/
structure ArgumentNode where
  name : String
  value : ValueNode
deriving DecidableEq, Repr

/-- A `FieldNode` selection: its name, arguments, and the remaining slots
(alias, directives, nested selection set) which the transform copies
verbatim through the object spread. -/
structure FieldNode where
  name : String
  arguments : List ArgumentNode
  rest : Nat
deriving DecidableEq, Repr

/-- A selection: a field node, or any other selection kind (fragment spread
or inline fragment), pushed through unchanged. -/
inductive SelectionNode where
  | field (f : FieldNode) : SelectionNode
  | nonField (tag : Nat) : SelectionNode
deriving DecidableEq, Repr

/-- A `VariableDefinitionNode`, flattened to the slots the transform reads
and writes (`variableDefinition.variable.name.value` and `type`). -/
structure VariableDefinitionNode where
  varName : String
  type : TypeNode
deriving DecidableEq, Repr

/-- An `OperationDefinitionNode`: kind, variable definitions, selection set,
and the remaining slots (name, directives) copied verbatim by the spread. -/
structure OperationDefinitionNode where
  operation : OpKind
  variableDefinitions : List VariableDefinitionNode
  selectionSet : List SelectionNode
  rest : Nat
deriving DecidableEq, Repr

/-- A document definition: an operation, a fragment definition (opaque,
passed through unchanged), or any other definition kind (dropped by the
transform's two filters). -/
inductive DefinitionNode where
  | operationDef (op : OperationDefinitionNode) : DefinitionNode
  | fragmentDef (tag : Nat) : DefinitionNode
  | otherDef (tag : Nat) : DefinitionNode
deriving DecidableEq, Repr

/-- A `DocumentNode`: its definitions plus the remaining slots copied by the
spread. -/
structure DocumentNode where
  definitions : List DefinitionNode
  rest : Nat
deriving DecidableEq, Repr

/-- A `Request` at the transform protocol boundary: document plus variables
mapping. -/
structure Request where
  document : DocumentNode
  variablesMap : List (String × JSValue)

/-- Truth of `def.kind === Kind.FRAGMENT_DEFINITION`. -/
def isFragmentDef : DefinitionNode → Bool
  | .fragmentDef _ => true
  | _ => false

/-- The operation-scoped mutable state of `addVariablesToRootField`:
`existingVariables` and `variableCounter` and the `variables` dictionary are
per-operation; `variableNames` and `newVariables` are shared across the
whole call (declared outside the operations map) and threaded through. -/
structure OpProcState where
  existingVariables : List String
  variableCounter : Nat
  variablesDict : List (String × VariableDefinitionNode)
  variableNames : List (String × String)
  newVariables : List (String × JSValue)

/-- One iteration of the `field.args.forEach(argument => ...)` loop: when
`argument.name in args`, generate a fresh variable name, record it in
`variableNames`, replace the argument in `newArgs` with a variable
reference, push the name onto `existingVariables`, record the variable
definition (typed by `typeToAst`) and the serialized argument value. -/
def injectArgStep (args : List (String × JSValue)) (st : OpProcState)
    (newArgs : List (String × ArgumentNode)) (argument : GQLArgument) :
    Except String (OpProcState × List (String × ArgumentNode)) :=
  match lookupOpt args argument.name with
  | none => .ok (st, newArgs)
  | some argValue =>
      let gen := generateVariableName st.existingVariables argument.name
        st.variableCounter
      let variableName := gen.1
      match typeToAst argument.type with
      | .error e => .error e
      | .ok typeAst =>
          match serializeArgumentValue argument.type argValue with
          | .error e => .error e
          | .ok serialized =>
              .ok
                ({ existingVariables := st.existingVariables ++ [variableName]
                   variableCounter := gen.2
                   variablesDict :=
                     dictSet st.variablesDict variableName ⟨variableName, typeAst⟩
                   variableNames :=
                     dictSet st.variableNames argument.name variableName
                   newVariables := dictSet st.newVariables variableName serialized },
                 dictSet newArgs argument.name
                   ⟨argument.name, .variableNode variableName⟩)

/-- The `field.args.forEach` loop over a field's declared arguments. -/
def injectArgs (args : List (String × JSValue)) (schemaArgs : List GQLArgument)
    (st : OpProcState) (newArgs : List (String × ArgumentNode)) :
    Except String (OpProcState × List (String × ArgumentNode)) :=
  match schemaArgs with
  | [] => .ok (st, newArgs)
  | argument :: rest =>
      match injectArgStep args st newArgs argument with
      | .error e => .error e
      | .ok r => injectArgs args rest r.1 r.2

/-- The `operation.selectionSet.selections.forEach` loop: a field selection
keys its arguments into `newArgs`, looks the field up on the root type
(reading `.args` of an absent field is a JS `TypeError`), runs the
argument-injection loop, and pushes the spread-rebuilt field node with
`newArgs`' values in key-insertion order; any other selection is pushed
unchanged. -/
def processSelections (typeFields : List (String × GQLField))
    (args : List (String × JSValue)) (selections : List SelectionNode)
    (st : OpProcState) (newSelectionSet : List SelectionNode) :
    Except String (OpProcState × List SelectionNode) :=
  match selections with
  | [] => .ok (st, newSelectionSet)
  | .nonField t :: rest =>
      processSelections typeFields args rest st (newSelectionSet ++ [.nonField t])
  | .field f :: rest =>
      match lookupOpt typeFields f.name with
      | none => .error "TypeError: cannot read args of undefined field"
      | some fieldDef =>
          match injectArgs args fieldDef.args st
              (f.arguments.foldl (fun na a => dictSet na a.name a) []) with
          | .error e => .error e
          | .ok r =>
              processSelections typeFields args rest r.1
                (newSelectionSet ++ [.field { f with arguments := r.2.map Prod.snd }])

/-- The body of `operations.map(operation => ...)`: seeds the per-operation
state from the operation's declared variable names, resolves the root type
(reading `.getFields()` of an absent root type is a JS `TypeError`),
processes the selections, and spread-rebuilds the operation with the
original variable definitions concatenated with the generated ones (the
`variables` dictionary's values in key-insertion order) and the new
selection set. -/
def processOperation (targetSchema : GQLSchema)
    (args : List (String × JSValue)) (variableNames : List (String × String))
    (newVariables : List (String × JSValue))
    (operation : OperationDefinitionNode) :
    Except String
      (OperationDefinitionNode × List (String × String) × List (String × JSValue)) :=
  match rootType targetSchema operation.operation with
  | none => .error "TypeError: cannot read getFields of undefined root type"
  | some type =>
      match processSelections type.fields args operation.selectionSet
          { existingVariables :=
              operation.variableDefinitions.map (fun vd => vd.varName)
            variableCounter := 0
            variablesDict := []
            variableNames := variableNames
            newVariables := newVariables } [] with
      | .error e => .error e
      | .ok r =>
          .ok
            ({ operation with
                 variableDefinitions :=
                   operation.variableDefinitions ++ r.1.variablesDict.map Prod.snd
                 selectionSet := r.2 },
             r.1.variableNames, r.1.newVariables)

/-- The `operations.map` itself, evaluated left to right with the shared
`variableNames`/`newVariables` dictionaries threaded through. -/
def processOperations (targetSchema : GQLSchema)
    (args : List (String × JSValue)) (variableNames : List (String × String))
    (newVariables : List (String × JSValue)) :
    List OperationDefinitionNode →
    Except String
      (List OperationDefinitionNode × List (String × String) × List (String × JSValue))
  | [] => .ok ([], variableNames, newVariables)
  | operation :: rest =>
      match processOperation targetSchema args variableNames newVariables operation with
      | .error e => .error e
      | .ok r =>
          match processOperations targetSchema args r.2.1 r.2.2 rest with
          | .error e => .error e
          | .ok rs => .ok (r.1 :: rs.1, rs.2)

/-- Projection behind `def.kind === Kind.OPERATION_DEFINITION` filtering. -/
def asOperationDef : DefinitionNode → Option OperationDefinitionNode
  | .operationDef op => some op
  | _ => none

/-- Embedding of `addVariablesToRootField(targetSchema, document, args)`:
splits the definitions into operations and fragments, maps the operations,
and spread-rebuilds the document with `[...newOperations, ...fragments]`,
returning it together with `newVariables`. -/
def addVariablesToRootField (targetSchema : GQLSchema) (document : DocumentNode)
    (args : List (String × JSValue)) :
    Except String (DocumentNode × List (String × JSValue)) :=
  match processOperations targetSchema args [] []
      (document.definitions.filterMap asOperationDef) with
  | .error e => .error e
  | .ok r =>
      .ok
        ({ document with
             definitions := r.1.map DefinitionNode.operationDef ++
               document.definitions.filter isFragmentDef },
         r.2.2)

/-- Embedding of `AddArgumentsAsVariablesTransform.transformRequest`:
rewrites the document, spread-merges the original variables with the new
ones, and returns a freshly constructed `Request` record. -/
def transformRequest (schema : GQLSchema) (args : List (String × JSValue))
    (originalRequest : Request) : Except String Request :=
  match addVariablesToRootField schema originalRequest.document args with
  | .error e => .error e
  | .ok r =>
      .ok
        { document := r.1
          variablesMap := r.2.foldl (fun acc kv => dictSet acc kv.1 kv.2)
            originalRequest.variablesMap }

/-!
Verification-side definitions: auxiliary functions and relations used to
state and prove the claims, plus concrete fixtures for the witnesses and
counterexamples.
-/

/-- Decimal reading of a string (verification auxiliary: a left inverse of
`natToString`, yielding its injectivity). -/
def decimalVal (s : String) : Nat :=
  s.data.foldl (fun acc c => acc * 10 + (c.toNat - 48)) 0

mutual

/-- All errors appearing in any `ERROR_SYMBOL` tag anywhere in a value tree
(used to state that an error was dropped: it appears in no subtree's tag). -/
def collectTaggedErrors : JSValue → List JSError
  | .obj _ props _ et _ =>
      (match et with
       | some es => es
       | none => []) ++ collectTaggedErrorsProps props
  | .arr items => collectTaggedErrorsList items
  | _ => []

/-- `collectTaggedErrors` over a list of values. -/
def collectTaggedErrorsList : List JSValue → List JSError
  | [] => []
  | v :: rest => collectTaggedErrors v ++ collectTaggedErrorsList rest

/-- `collectTaggedErrors` over a property list. -/
def collectTaggedErrorsProps : List (String × JSValue) → List JSError
  | [] => []
  | (_, v) :: rest => collectTaggedErrors v ++ collectTaggedErrorsProps rest

end

/-- The relocation described by claim C3's words: the error relocated "by
dropping that leading index segment", i.e. with the second path segment
(the array index position) removed.  On paths shorter than two segments —
which the index filter never selects — the path is kept. -/
def claimIndexReloc (error : JSError) : JSError :=
  relocatedError error error.nodes
    (match error.path with
     | some (h :: _ :: t) => some (h :: t)
     | p => p)

/-- The per-element error subset described by claim C3 (with the JS
property-key reading of "second path segment equals i"): the input errors
whose second path segment coerces to the decimal key of `index`, each
relocated by `claimIndexReloc`. -/
def claimElementErrors (errors : List JSError) (index : Nat) : List JSError :=
  (errors.filter (fun e => errIndexKey e == some (natToString index))).map
    claimIndexReloc

/-- The array tagging described by claim C3: element `i` is produced by
recursively tagging the `i`-th input element with `claimElementErrors`. -/
def claimMergeItems (items : List JSValue) (errors : List JSError)
    (subschemas : List Subschema) (index : Nat) : List JSValue :=
  match items with
  | [] => []
  | item :: rest =>
      createMergedResult item (claimElementErrors errors index) subschemas
        :: claimMergeItems rest errors subschemas (index + 1)

/-- Two errors that agree on every stored field except possibly the head of
their (present, non-empty) paths.  `createMergedResult` cannot distinguish
such errors: every relocation it applies drops the head segment, and the
array grouping reads only the second segment. -/
def ErrHeadRel (e₁ e₂ : JSError) : Prop :=
  e₁.message = e₂.message ∧ e₁.nodes = e₂.nodes ∧ e₁.source = e₂.source ∧
  e₁.positions = e₂.positions ∧ e₁.extensions = e₂.extensions ∧
  ∃ h₁ h₂ t, e₁.path = some (h₁ :: t) ∧ e₂.path = some (h₂ :: t)

/-- The invariant of the per-operation argument-injection state: the
`existingVariables` array is exactly the operation's original variable names
followed by the generated names (the keys of the `variables` dictionary, in
insertion order); the generated names are pairwise distinct and avoid the
original names; and each recorded variable definition is named by its key. -/
def OpInv (origNames : List String) (st : OpProcState) : Prop :=
  st.existingVariables = origNames ++ st.variablesDict.map Prod.fst ∧
  (st.variablesDict.map Prod.fst).Nodup ∧
  (∀ n ∈ st.variablesDict.map Prod.fst, n ∉ origNames) ∧
  (∀ kv ∈ st.variablesDict, kv.2.varName = kv.1)

/-- Fixture: an error located at response path `[a, b]`. -/
def errAB : JSError :=
  { message := "boom ab", nodes := none, source := none, positions := none
    path := some [.key "a", .key "b"], extensions := some ⟨1⟩ }

/-- Fixture: an error located at response path `[c]`. -/
def errC : JSError :=
  { message := "boom c", nodes := none, source := none, positions := none
    path := some [.key "c"], extensions := none }

/-- Fixture: an error with no path at all. -/
def errNoPath : JSError :=
  { message := "boom nopath", nodes := none, source := none, positions := none
    path := none, extensions := none }

/-- Fixture: an error whose path is the empty array. -/
def errEmptyPath : JSError :=
  { message := "boom empty", nodes := none, source := none, positions := none
    path := some [], extensions := none }

/-- Fixture: an error whose second path segment is the STRING `"0"`, not the
number `0`. -/
def errStrIdx : JSError :=
  { message := "boom stridx", nodes := none, source := none, positions := none
    path := some [.key "r", .key "0", .key "x"], extensions := none }

/-- Fixture: an object result of shape `{a: {b: X}, c: Y}`. -/
def objAC : JSValue :=
  .obj 7 [("a", .obj 8 [("b", .prim (.other 1))] false none none),
          ("c", .prim (.other 2))] false none none

/-- Fixture: a target schema whose query type has one field `items` with two
arguments `limit` and `skip`. -/
def demoSchema : GQLSchema :=
  { queryType := some
      { fields := [("items",
          { args := [{ name := "limit", type := .scalar "Int" },
                     { name := "skip", type := .nonNull (.scalar "Int") }] })] }
    mutationType := none
    subscriptionType := none }

/-- Fixture: a query operation already declaring a variable named
`_v0_limit` — a collision seed for the generated names. -/
def demoOp : OperationDefinitionNode :=
  { operation := .query
    variableDefinitions := [{ varName := "_v0_limit", type := .namedType "Int" }]
    selectionSet := [.field { name := "items", arguments := [], rest := 0 }]
    rest := 3 }

/-- Fixture: a document holding `demoOp` and one fragment definition. -/
def demoDoc : DocumentNode :=
  { definitions := [.operationDef demoOp, .fragmentDef 9], rest := 1 }

/-- Fixture: a request over `demoDoc` with one pre-existing variable value. -/
def demoReq : Request :=
  { document := demoDoc, variablesMap := [("x", .prim (.num 7))] }

/-- Fixture: the injected arguments `{limit: 5, skip: 2}`. -/
def demoArgs : List (String × JSValue) :=
  [("limit", .prim (.num 5)), ("skip", .prim (.num 2))]

/-- Fixture: the operation node produced by transforming `demoOp`. -/
def demoOpOut : OperationDefinitionNode :=
  { operation := .query
    variableDefinitions :=
      [{ varName := "_v0_limit", type := .namedType "Int" },
       { varName := "_v1_limit", type := .namedType "Int" },
       { varName := "_v2_skip", type := .nonNullType (.namedType "Int") }]
    selectionSet :=
      [.field { name := "items"
                arguments :=
                  [{ name := "limit", value := .variableNode "_v1_limit" },
                   { name := "skip", value := .variableNode "_v2_skip" }]
                rest := 0 }]
    rest := 3 }

/-- Fixture: the request produced by transforming `demoReq`. -/
def demoReqOut : Request :=
  { document := { definitions := [.operationDef demoOpOut, .fragmentDef 9], rest := 1 }
    variablesMap :=
      [("x", .prim (.num 7)), ("_v1_limit", .prim (.num 5)),
       ("_v2_skip", .prim (.num 2))] }

/-!
Helper lemmas: association lists, fold/filter correspondences, decimal
rendering, and freshness of generated variable names.
-/

theorem lookupD_dictSet_self {α : Type} (l : List (String × α)) (k : String)
    (v : α) (d : α) : lookupD (dictSet l k v) k d = v := by
  induction l with
  | nil => simp [dictSet, lookupD]
  | cons kv rest ih =>
      by_cases h : kv.1 = k
      · simp [dictSet, h, lookupD]
      · simpa [dictSet, h, lookupD] using ih

theorem lookupD_dictSet_ne {α : Type} (l : List (String × α)) (k k' : String)
    (v : α) (d : α) (h : k' ≠ k) :
    lookupD (dictSet l k' v) k d = lookupD l k d := by
  induction l with
  | nil => simp [dictSet, lookupD, h]
  | cons kv rest ih =>
      by_cases hk : kv.1 = k'
      · simp [dictSet, hk, lookupD, h]
      · simp [dictSet, hk, lookupD, ih]

theorem lookupOpt_dictSet_ne {α : Type} (l : List (String × α)) (k k' : String)
    (v : α) (h : k' ≠ k) : lookupOpt (dictSet l k' v) k = lookupOpt l k := by
  induction l with
  | nil => simp [dictSet, lookupOpt, h]
  | cons kv rest ih =>
      by_cases hk : kv.1 = k'
      · simp [dictSet, hk, lookupOpt, h]
      · simp [dictSet, hk, lookupOpt, ih]

theorem dictSet_of_not_mem_keys {α : Type} (l : List (String × α)) (k : String)
    (v : α) (h : k ∉ l.map Prod.fst) : dictSet l k v = l ++ [(k, v)] := by
  induction l with
  | nil => simp [dictSet]
  | cons kv rest ih =>
      simp only [List.map_cons, List.mem_cons] at h
      push_neg at h
      have hne : ¬kv.1 = k := fun hq => h.1 hq.symm
      simp [dictSet, hne, ih h.2]

theorem foldl_push_filter {α : Type} (p : α → Bool) (l : List α) :
    ∀ acc : List α,
      l.foldl (fun a e => if p e then a ++ [e] else a) acc = acc ++ l.filter p := by
  induction l with
  | nil => intro acc; simp
  | cons e rest ih =>
      intro acc
      by_cases h : p e <;> simp [List.foldl_cons, h, ih, List.filter_cons]

theorem byIndex_fold_lookup (k : String) (es : List JSError) :
    ∀ acc : List (String × List JSError),
      lookupD (es.foldl byIndexStep acc) k [] =
        lookupD acc k [] ++
          (es.filter (fun e => errIndexKey e == some k)).map relocOne := by
  induction es with
  | nil => intro acc; simp
  | cons e rest ih =>
      intro acc
      rw [List.foldl_cons]
      cases he : errIndexKey e with
      | none =>
          rw [ih]
          simp [byIndexStep, he, List.filter_cons]
      | some k' =>
          by_cases hk : k' = k
          · subst hk
            rw [ih]
            simp [byIndexStep, he, List.filter_cons, lookupD_dictSet_self,
              List.append_assoc]
          · rw [ih]
            simp [byIndexStep, he, List.filter_cons, lookupD_dictSet_ne _ _ _ _ _ hk,
              Option.some.injEq, hk]

theorem mkByIndex_lookup (es : List JSError) (k : String) :
    lookupD (mkByIndex es) k [] =
      (es.filter (fun e => errIndexKey e == some k)).map relocOne := by
  have h := byIndex_fold_lookup k es []
  simpa [mkByIndex, lookupD] using h

theorem natDigitsRev_lt_base : ∀ (fuel n : Nat), ∀ d ∈ natDigitsRev fuel n, d < 10 := by
  intro fuel
  induction fuel with
  | zero => intro n d hd; simp [natDigitsRev] at hd
  | succ f ih =>
      intro n d hd
      by_cases hn : n = 0
      · simp [natDigitsRev, hn] at hd
      · simp only [natDigitsRev, hn, if_false, List.mem_cons] at hd
        rcases hd with hd | hd
        · subst hd; exact Nat.mod_lt _ (by norm_num)
        · exact ih _ _ hd

theorem natDigitsRev_eq_digits : ∀ (fuel n : Nat), n ≤ fuel →
    natDigitsRev fuel n = Nat.digits 10 n := by
  intro fuel
  induction fuel with
  | zero =>
      intro n hn
      interval_cases n
      simp [natDigitsRev]
  | succ f ih =>
      intro n hn
      by_cases h0 : n = 0
      · simp [natDigitsRev, h0]
      · rw [Nat.digits_def' (by norm_num : 1 < 10) (Nat.pos_of_ne_zero h0)]
        simp only [natDigitsRev, h0, if_false]
        congr 1
        exact ih _ (by omega : n / 10 ≤ f)

theorem digitChar_toNat_inv : ∀ d, d < 10 → (Nat.digitChar d).toNat - 48 = d := by
  decide

theorem foldr_digits_ofDigits (L : List Nat) (hL : ∀ d ∈ L, d < 10) :
    L.foldr (fun d acc => acc * 10 + ((Nat.digitChar d).toNat - 48)) 0 =
      Nat.ofDigits 10 L := by
  induction L with
  | nil => simp [Nat.ofDigits_nil]
  | cons d rest ih =>
      have hd : d < 10 := hL d (by simp)
      have hr : ∀ x ∈ rest, x < 10 := fun x hx => hL x (by simp [hx])
      rw [List.foldr_cons, ih hr, Nat.ofDigits_cons, digitChar_toNat_inv d hd]
      ring

theorem decimalVal_natToString (n : Nat) : decimalVal (natToString n) = n := by
  by_cases h0 : n = 0
  · subst h0; decide
  · have hdig : natDigitsRev n n = Nat.digits 10 n := natDigitsRev_eq_digits n n le_rfl
    have hlt : ∀ d ∈ natDigitsRev n n, d < 10 := natDigitsRev_lt_base n n
    simp only [decimalVal, natToString, h0, if_false]
    rw [List.foldl_reverse, List.foldr_map]
    rw [foldr_digits_ofDigits _ hlt, hdig, Nat.ofDigits_digits]

theorem natToString_injective : Function.Injective natToString := by
  intro a b h
  have := decimalVal_natToString a
  rw [h, decimalVal_natToString] at this
  exact this.symm

theorem varNameStr_inj (a : String) (c₁ c₂ : Nat)
    (h : varNameStr c₁ a = varNameStr c₂ a) : c₁ = c₂ := by
  apply natToString_injective
  apply String.ext
  have hd := congrArg String.data h
  simp only [varNameStr, String.data_append, List.append_assoc] at hd
  have hd₂ := List.append_cancel_left hd
  have hlen : (natToString c₁).data.length = (natToString c₂).data.length := by
    have := congrArg List.length hd₂
    simpa using this
  exact (List.append_inj hd₂ hlen).1

theorem genAux_not_mem (ex : List String) (a : String) :
    ∀ (fuel c : Nat), (∃ k < fuel, varNameStr (c + k) a ∉ ex) →
      (genAux ex a c fuel).1 ∉ ex := by
  intro fuel
  induction fuel with
  | zero => intro c h; rcases h with ⟨k, hk, _⟩; omega
  | succ f ih =>
      intro c h
      by_cases hmem : varNameStr c a ∈ ex
      · rcases h with ⟨k, hk, hfree⟩
        have hk0 : k ≠ 0 := by
          intro h0
          subst h0
          simp at hfree
          exact hfree hmem
        have : ∃ k' < f, varNameStr (c + 1 + k') a ∉ ex := by
          refine ⟨k - 1, by omega, ?_⟩
          have : c + 1 + (k - 1) = c + k := by omega
          rw [this]
          exact hfree
        simpa [genAux, hmem] using ih (c + 1) this
      · simp [genAux, hmem]

theorem exists_free_name (ex : List String) (a : String) (c : Nat) :
    ∃ k < ex.length + 1, varNameStr (c + k) a ∉ ex := by
  by_contra hcon
  push_neg at hcon
  have hsub : (Finset.range (ex.length + 1)).image (fun k => varNameStr (c + k) a)
      ⊆ ex.toFinset := by
    intro s hs
    simp only [Finset.mem_image, Finset.mem_range] at hs
    rcases hs with ⟨k, hk, rfl⟩
    simpa [List.mem_toFinset] using hcon k hk
  have hcard : ((Finset.range (ex.length + 1)).image
      (fun k => varNameStr (c + k) a)).card = ex.length + 1 := by
    rw [Finset.card_image_of_injOn, Finset.card_range]
    intro k₁ _ k₂ _ hk
    have := varNameStr_inj a (c + k₁) (c + k₂) hk
    omega
  have := Finset.card_le_card hsub
  rw [hcard] at this
  have := this.trans (List.toFinset_card_le ex)
  omega

theorem generateVariableName_fresh (ex : List String) (a : String) (c : Nat) :
    (generateVariableName ex a c).1 ∉ ex :=
  genAux_not_mem ex a (ex.length + 1) c (exists_free_name ex a c)

theorem mkGraphQLError_self_ext (m : String) (nd : Option (List ASTNode))
    (s : Option SourceRef) (p : Option (List Nat)) (pa : Option (List PathSeg))
    (oe : JSError) :
    mkGraphQLError m nd s p pa (some oe) oe.extensions =
      { message := m, nodes := nd, source := s, positions := p, path := pa
        extensions := oe.extensions } := by
  cases h : oe.extensions <;> simp [mkGraphQLError, h]

theorem mkGraphQLError_none_ext (m : String) (nd : Option (List ASTNode))
    (s : Option SourceRef) (p : Option (List Nat)) (pa : Option (List PathSeg))
    (oe : JSError) :
    mkGraphQLError m nd s p pa (some oe) none =
      { message := m, nodes := nd, source := s, positions := p, path := pa
        extensions := oe.extensions } := by
  simp [mkGraphQLError]

theorem getErrorsFromParent_eq_filter (object : JSValue) (fieldName : String) :
    getErrorsFromParent object fieldName =
      (errTagOf object).map
        (fun es => es.filter (fun e => errMatchesField e fieldName)) := by
  cases h : errTagOf object with
  | none => simp [getErrorsFromParent, h]
  | some es =>
      simp only [getErrorsFromParent, h, Option.map_some]
      rw [foldl_push_filter]
      simp

theorem relocOne_some_path (e : JSError) (hseg : PathSeg)
    (t : List PathSeg) (hp : e.path = some (hseg :: t)) :
    relocOne e =
      { message := e.message, nodes := e.nodes, source := e.source
        positions := e.positions, path := some t, extensions := e.extensions } := by
  unfold relocOne relocatedError
  rw [hp]
  simp only [Option.map_some, List.drop_succ_cons, List.drop_zero]
  exact mkGraphQLError_self_ext _ _ _ _ _ _

theorem natToString_ne_undefined (n : Nat) : natToString n ≠ "undefined" := by
  intro h
  have hn : n = decimalVal "undefined" := by
    rw [← decimalVal_natToString n, h]
  rw [hn] at h
  revert h
  decide

theorem errIndexKey_shape (e : JSError) (i : Nat)
    (h : errIndexKey e = some (natToString i)) :
    ∃ hseg s t, e.path = some (hseg :: s :: t) ∧ segPropKey s = natToString i := by
  cases hp : e.path with
  | none => simp [errIndexKey, hp] at h
  | some p =>
      cases p with
      | nil =>
          rw [errIndexKey, hp] at h
          simp only [List.get?] at h
          exact absurd (Option.some.inj h).symm (natToString_ne_undefined i)
      | cons a q =>
          cases q with
          | nil =>
              rw [errIndexKey, hp] at h
              simp only [List.get?] at h
              exact absurd (Option.some.inj h).symm (natToString_ne_undefined i)
          | cons b t =>
              rw [errIndexKey, hp] at h
              simp only [List.get?] at h
              exact ⟨a, b, t, rfl, (Option.some.inj h)⟩

theorem claimIndexReloc_rel (e : JSError) (i : Nat)
    (h : errIndexKey e = some (natToString i)) :
    ErrHeadRel (relocOne e) (claimIndexReloc e) := by
  obtain ⟨a, b, t, hp, _⟩ := errIndexKey_shape e i h
  have h₁ := relocOne_some_path e a (b :: t) hp
  have h₂ : claimIndexReloc e =
      { message := e.message, nodes := e.nodes, source := e.source
        positions := e.positions, path := some (a :: t)
        extensions := e.extensions } := by
    simp only [claimIndexReloc, hp, relocatedError]
    exact mkGraphQLError_self_ext _ _ _ _ _ _
  rw [h₁, h₂]
  exact ⟨rfl, rfl, rfl, rfl, rfl, b, a, t, rfl, rfl⟩

theorem relocOne_congr (e₁ e₂ : JSError) (h : ErrHeadRel e₁ e₂) :
    relocOne e₁ = relocOne e₂ := by
  obtain ⟨hm, hn, hs, hp, he, h₁, h₂, t, hp₁, hp₂⟩ := h
  rw [relocOne_some_path e₁ h₁ t hp₁, relocOne_some_path e₂ h₂ t hp₂,
    hm, hn, hs, hp, he]

theorem errIndexKey_congr (e₁ e₂ : JSError) (h : ErrHeadRel e₁ e₂) :
    errIndexKey e₁ = errIndexKey e₂ := by
  obtain ⟨_, _, _, _, _, h₁, h₂, t, hp₁, hp₂⟩ := h
  simp [errIndexKey, hp₁, hp₂]

theorem byIndexStep_congr (acc : List (String × List JSError))
    (e₁ e₂ : JSError) (h : ErrHeadRel e₁ e₂) :
    byIndexStep acc e₁ = byIndexStep acc e₂ := by
  simp [byIndexStep, errIndexKey_congr _ _ h, relocOne_congr _ _ h]

theorem mkByIndex_fold_congr (l₁ l₂ : List JSError)
    (h : List.Forall₂ ErrHeadRel l₁ l₂) :
    ∀ acc, l₁.foldl byIndexStep acc = l₂.foldl byIndexStep acc := by
  induction h with
  | nil => intro acc; rfl
  | cons he _ ih =>
      intro acc
      rw [List.foldl_cons, List.foldl_cons, byIndexStep_congr _ _ _ he]
      exact ih _

theorem mkByIndex_congr (l₁ l₂ : List JSError)
    (h : List.Forall₂ ErrHeadRel l₁ l₂) : mkByIndex l₁ = mkByIndex l₂ :=
  mkByIndex_fold_congr l₁ l₂ h []

theorem map_relocOne_congr (l₁ l₂ : List JSError)
    (h : List.Forall₂ ErrHeadRel l₁ l₂) :
    l₁.map relocOne = l₂.map relocOne := by
  induction h with
  | nil => rfl
  | cons he _ ih => simp [relocOne_congr _ _ he, ih]

theorem createMergedResult_congr (v : JSValue) (l₁ l₂ : List JSError)
    (ss : List Subschema) (h : List.Forall₂ ErrHeadRel l₁ l₂) :
    createMergedResult v l₁ ss = createMergedResult v l₂ ss := by
  cases v <;>
    simp [createMergedResult, map_relocOne_congr _ _ h, mkByIndex_congr _ _ h]

theorem forall₂_map_of_mem {α β : Type} (f g : α → β) (R : β → β → Prop)
    (l : List α) (h : ∀ e ∈ l, R (f e) (g e)) :
    List.Forall₂ R (l.map f) (l.map g) := by
  induction l with
  | nil => exact List.Forall₂.nil
  | cons x rest ih =>
      exact List.Forall₂.cons (h x (by simp))
        (ih (fun e he => h e (by simp [he])))

theorem mergeItems_eq_claimMergeItems (es : List JSError) (ss : List Subschema) :
    ∀ (items : List JSValue) (i : Nat),
      mergeItems items (mkByIndex es) ss i = claimMergeItems items es ss i := by
  intro items
  induction items with
  | nil => intro i; rfl
  | cons x rest ih =>
      intro i
      rw [mergeItems, claimMergeItems, ih]
      have hhead :
          createMergedResult x (lookupD (mkByIndex es) (natToString i) []) ss =
            createMergedResult x (claimElementErrors es i) ss := by
        rw [mkByIndex_lookup]
        apply createMergedResult_congr
        apply forall₂_map_of_mem
        intro e he
        have hcond : errIndexKey e = some (natToString i) := by
          have := List.of_mem_filter he
          simpa using this
        exact claimIndexReloc_rel e i hcond
      rw [hhead]

theorem mergeItems_length (byIdx : List (String × List JSError))
    (ss : List Subschema) :
    ∀ (items : List JSValue) (i : Nat),
      (mergeItems items byIdx ss i).length = items.length := by
  intro items
  induction items with
  | nil => intro i; rfl
  | cons x rest ih => intro i; rw [mergeItems]; simp [ih]

theorem mergeItems_get? (byIdx : List (String × List JSError))
    (ss : List Subschema) :
    ∀ (items : List JSValue) (i j : Nat),
      (mergeItems items byIdx ss i)[j]? =
        (items[j]?).map
          (fun item =>
            createMergedResult item (lookupD byIdx (natToString (i + j)) []) ss) := by
  intro items
  induction items with
  | nil => intro i j; simp [mergeItems]
  | cons x rest ih =>
      intro i j
      cases j with
      | zero => simp [mergeItems]
      | succ j' =>
          rw [mergeItems]
          simp only [List.getElem?_cons_succ]
          rw [ih (i + 1) j']
          have : i + 1 + j' = i + (j' + 1) := by omega
          rw [this]

/-!
Claim theorems, part 1 (error-tagging module).
-/

/-- C1, counterexample: with the result `{a: {b: X}, c: Y}` and errors at
paths `[a, b]` and `[c]` exactly as the claim states, reading tagged errors
per field attributes NOTHING to the `a` subtree and NOTHING to the `c`
subtree: `createMergedResult` already strips the leading path segment at
attach time (the tag holds the errors at paths `[b]` and `[]`), and
`getErrorsFromParent` compares the stored head segment — `b`, not `a` — and
never admits an empty (as opposed to absent) path. -/
theorem createMergedResult_partition_cex :
    getErrorsFromParent (createMergedResult objAC [errAB, errC] []) "a" = some [] ∧
    getErrorsFromParent (createMergedResult objAC [errAB, errC] []) "c" = some [] ∧
    errTagOf (createMergedResult objAC [errAB, errC] []) =
      some [relocOne errAB, relocOne errC] ∧
    (relocOne errAB).path = some [.key "b"] ∧
    (relocOne errC).path = some [] :=
  ⟨rfl, rfl, rfl, rfl, rfl⟩

/-- C1, amended: tagging `{a: A, c: C}` with errors at paths `[a, b]` and
`[c]` attaches exactly the two errors relocated by dropping their leading
segment (to `[b]` and `[]`); `getErrorsFromParent` then attributes the
first error to field `b` and only to field `b`, and attributes the second
(empty-path) error to no field at all — in particular fields `a` and `c`
receive no errors. -/
theorem createMergedResult_partition_amended
    (a b c : String) (A C : JSValue) (i : Nat) (e1 e2 : JSError)
    (ss : List Subschema)
    (h1 : e1.path = some [.key a, .key b]) (h2 : e2.path = some [.key c])
    (hba : b ≠ a) (hbc : b ≠ c) :
    errTagOf (createMergedResult (.obj i [(a, A), (c, C)] false none none)
        [e1, e2] ss) = some [relocOne e1, relocOne e2] ∧
    (relocOne e1).path = some [.key b] ∧
    (relocOne e2).path = some [] ∧
    getErrorsFromParent (createMergedResult (.obj i [(a, A), (c, C)] false none none)
        [e1, e2] ss) a = some [] ∧
    getErrorsFromParent (createMergedResult (.obj i [(a, A), (c, C)] false none none)
        [e1, e2] ss) c = some [] ∧
    getErrorsFromParent (createMergedResult (.obj i [(a, A), (c, C)] false none none)
        [e1, e2] ss) b = some [relocOne e1] := by
  have hr1 := relocOne_some_path e1 (.key a) [.key b] h1
  have hr2 := relocOne_some_path e2 (.key c) [] h2
  have htag : errTagOf (createMergedResult (.obj i [(a, A), (c, C)] false none none)
      [e1, e2] ss) = some [relocOne e1, relocOne e2] := by
    simp [createMergedResult, errTagOf]
  refine ⟨htag, by rw [hr1], by rw [hr2], ?_, ?_, ?_⟩ <;>
    rw [getErrorsFromParent_eq_filter, htag] <;>
    simp [errMatchesField, hr1, hr2, hba, hbc]

/-- C1, witness for the amended theorem at the concrete instance of the
claim: field names `a`/`b`/`c`, an object-valued `a` field, and the two
errors of the fixtures. -/
theorem createMergedResult_partition_witness :
    (errAB.path = some [.key "a", .key "b"]) ∧
    (errC.path = some [.key "c"]) ∧
    (errTagOf (createMergedResult
        (.obj 7 [("a", .obj 8 [("b", .prim (.other 1))] false none none),
                 ("c", .prim (.other 2))] false none none)
        [errAB, errC] []) = some [relocOne errAB, relocOne errC] ∧
     (relocOne errAB).path = some [.key "b"] ∧
     (relocOne errC).path = some [] ∧
     getErrorsFromParent (createMergedResult
        (.obj 7 [("a", .obj 8 [("b", .prim (.other 1))] false none none),
                 ("c", .prim (.other 2))] false none none)
        [errAB, errC] []) "a" = some [] ∧
     getErrorsFromParent (createMergedResult
        (.obj 7 [("a", .obj 8 [("b", .prim (.other 1))] false none none),
                 ("c", .prim (.other 2))] false none none)
        [errAB, errC] []) "c" = some [] ∧
     getErrorsFromParent (createMergedResult
        (.obj 7 [("a", .obj 8 [("b", .prim (.other 1))] false none none),
                 ("c", .prim (.other 2))] false none none)
        [errAB, errC] []) "b" = some [relocOne errAB]) :=
  ⟨rfl, rfl,
   createMergedResult_partition_amended "a" "b" "c"
     (.obj 8 [("b", .prim (.other 1))] false none none) (.prim (.other 2)) 7
     errAB errC [] rfl rfl (by decide) (by decide)⟩

/-- C2, counterexample: `createMergedResult` does silently drop errors — a
non-object primitive result is returned untouched, so its errors appear in
no subtree's tag; likewise a pathless error at an array node is skipped by
the grouping loop and reaches no element. -/
theorem createMergedResult_silent_drop_cex :
    collectTaggedErrors (createMergedResult (.prim (.num 5)) [errNoPath] []) = [] ∧
    createMergedResult (.prim (.num 5)) [errNoPath] [] = .prim (.num 5) ∧
    collectTaggedErrors
      (createMergedResult (.arr [.obj 1 [] false none none]) [errNoPath] []) = [] :=
  ⟨rfl, rfl, rfl⟩

/-- C2, amended: no error is dropped when the tagged value is an object or
`null` — the attached tag is exactly the relocated input list, in order —
and at an array node element `j` receives exactly the relocated errors
whose second path segment's property key is the decimal key of `j`, so an
error is never attributed to a subtree its path does not select.  (Errors
tagged onto non-object primitives, and array errors with no path or with a
non-matching second segment, are dropped.) -/
theorem createMergedResult_error_accounting :
    (∀ (i : Nat) (props : List (String × JSValue)) (mn : Bool)
       (et : Option (List JSError)) (st : Option (List Subschema))
       (es : List JSError) (ss : List Subschema),
       errTagOf (createMergedResult (.obj i props mn et st) es ss) =
         some (es.map relocOne)) ∧
    (∀ (es : List JSError) (ss : List Subschema),
       errTagOf (createMergedResult .null es ss) = some (es.map relocOne)) ∧
    (∀ (items : List JSValue) (es : List JSError) (ss : List Subschema),
       ∃ L, createMergedResult (.arr items) es ss = .arr L ∧
         L.length = items.length ∧
         ∀ j : Nat,
           L[j]? = (items[j]?).map
             (fun item => createMergedResult item
               ((es.filter (fun e => errIndexKey e == some (natToString j))).map
                 relocOne) ss)) := by
  refine ⟨?_, ?_, ?_⟩
  · intro i props mn et st es ss
    simp [createMergedResult, errTagOf]
  · intro es ss
    simp [createMergedResult, errTagOf]
  · intro items es ss
    refine ⟨mergeItems items (mkByIndex es) ss 0, by simp [createMergedResult], ?_, ?_⟩
    · exact mergeItems_length _ _ items 0
    · intro j
      rw [mergeItems_get?]
      simp [mkByIndex_lookup]

/-- C3, counterexample: the redistribution key is a JS property key, not a
number — an error whose second path segment is the STRING `"0"` is
attributed to element `0`, although its second segment is not the index
`0`; the claim ("exactly those input errors whose second path segment
equals i", "never attributed to an element whose index differs from their
second path segment") predicts element `0` would receive no error here. -/
theorem createMergedResult_index_coercion_cex :
    createMergedResult (.arr [.obj 1 [] false none none]) [errStrIdx] [] =
      .arr [.obj 1 [] false (some [relocOne (relocOne errStrIdx)]) (some [])] ∧
    errStrIdx.path = some [.key "r", .key "0", .key "x"] ∧
    some [relocOne (relocOne errStrIdx)] ≠ (some [] : Option (List JSError)) :=
  ⟨rfl, rfl, by decide⟩

/-- C3, amended: tagging an array returns an array of the same length whose
element `i` is produced by recursively tagging the `i`-th input element
with exactly those input errors whose second path segment — coerced to a JS
property key — equals the decimal key of `i`, each relocated by dropping
the index segment (`claimElementErrors`/`claimIndexReloc`); errors are
never attributed to an element whose index key differs from their second
segment's property key. -/
theorem createMergedResult_array_distribution (items : List JSValue)
    (es : List JSError) (ss : List Subschema) :
    createMergedResult (.arr items) es ss = .arr (claimMergeItems items es ss 0) ∧
    (claimMergeItems items es ss 0).length = items.length := by
  have h := mergeItems_eq_claimMergeItems es ss items 0
  constructor
  · rw [← h]
    simp [createMergedResult]
  · rw [← h]
    exact mergeItems_length _ _ items 0

/-- C4: tagging a `null` raw value with a non-empty error list yields the
null-sentinel marker object — not bare `null` — carrying the
`MERGED_NULL_SYMBOL` marker, whose attached error tag is exactly the input
list with each error relocated by dropping its leading path segment (and in
particular non-empty). -/
theorem createMergedResult_null_tagging (es : List JSError)
    (ss : List Subschema) (h : es ≠ []) :
    createMergedResult .null es ss =
      .obj 0 [] true (some (es.map relocOne)) (some ss) ∧
    createMergedResult .null es ss ≠ .null ∧
    mergedNullOf (createMergedResult .null es ss) = true ∧
    errTagOf (createMergedResult .null es ss) =
      some (es.map (fun e =>
        relocatedError e e.nodes (e.path.map (fun p => p.drop 1)))) ∧
    es.map relocOne ≠ [] := by
  refine ⟨by simp [createMergedResult], by simp [createMergedResult],
    by simp [createMergedResult, mergedNullOf],
    by simp [createMergedResult, errTagOf, relocOne], by simpa using h⟩

/-- C4, witness at the one-error instance. -/
theorem createMergedResult_null_tagging_witness :
    ([errC] ≠ ([] : List JSError)) ∧
    (createMergedResult .null [errC] [] =
      .obj 0 [] true (some ([errC].map relocOne)) (some []) ∧
    createMergedResult .null [errC] [] ≠ .null ∧
    mergedNullOf (createMergedResult .null [errC] []) = true ∧
    errTagOf (createMergedResult .null [errC] []) =
      some ([errC].map (fun e =>
        relocatedError e e.nodes (e.path.map (fun p => p.drop 1)))) ∧
    [errC].map relocOne ≠ []) :=
  ⟨by decide, createMergedResult_null_tagging [errC] [] (by decide)⟩

/-- C5, counterexample: an attached error whose path is the EMPTY array is
not returned for any field — `![]` is `false` in JS, so the admission test
`!error.path || error.path[0] === fieldName` rejects it — although the
claim's subset ("whose path is empty or starts with the field name")
includes it. -/
theorem getErrorsFromParent_empty_path_cex :
    getErrorsFromParent (.obj 3 [] false (some [errEmptyPath]) none) "a" =
      some [] ∧
    errEmptyPath.path = some [] ∧
    errTagOf (.obj 3 [] false (some [errEmptyPath]) none) = some [errEmptyPath] :=
  ⟨rfl, rfl, rfl⟩

/-- C5, amended: `getErrorsFromParent` returns the ordered subset of the
attached errors whose path is ABSENT or whose path starts with the given
field name (an empty path array is rejected, as is a leading index
segment), and returns the `null` sentinel — distinct from the empty list —
exactly when the value carries no array-valued error tag. -/
theorem getErrorsFromParent_readback (object : JSValue) (fieldName : String) :
    getErrorsFromParent object fieldName =
      (errTagOf object).map
        (fun es => es.filter (fun e => errMatchesField e fieldName)) :=
  getErrorsFromParent_eq_filter object fieldName

/-- C6: `relocatedError` preserves the original's message, source,
positions, and extensions; the returned error's path is the supplied new
path; the original's nodes are preserved whenever the original had a path
(and also whenever it had nodes), the fallback nodes being used only for an
error with no path and no nodes of its own.  The embedding is a pure
function of the input error, which the source never assigns into — the
input is not mutated. -/
theorem relocatedError_preserves_fields (e : JSError)
    (ns : Option (List ASTNode)) (p : List PathSeg) :
    (relocatedError e ns (some p)).message = e.message ∧
    (relocatedError e ns (some p)).source = e.source ∧
    (relocatedError e ns (some p)).positions = e.positions ∧
    (relocatedError e ns (some p)).extensions = e.extensions ∧
    (relocatedError e ns (some p)).path = some p ∧
    (e.path.isSome → (relocatedError e ns (some p)).nodes = e.nodes) ∧
    (e.path = none →
      (relocatedError e ns (some p)).nodes = Option.or e.nodes ns) := by
  cases hp : e.path with
  | some q =>
      have hEq : relocatedError e ns (some p) =
          { message := e.message, nodes := e.nodes, source := e.source
            positions := e.positions, path := some p
            extensions := e.extensions } := by
        simp only [relocatedError, hp]
        exact mkGraphQLError_self_ext _ _ _ _ _ _
      rw [hEq]
      exact ⟨rfl, rfl, rfl, rfl, rfl, fun _ => rfl,
        fun hnone => by simp [hp] at hnone⟩
  | none =>
      have hEq : relocatedError e ns (some p) =
          { message := e.message, nodes := Option.or e.nodes ns
            source := e.source, positions := e.positions, path := some p
            extensions := e.extensions } := by
        simp only [relocatedError, hp]
        rw [mkGraphQLError_none_ext]
        cases hn : e.nodes <;> simp [Option.or, hn]
      rw [hEq]
      refine ⟨rfl, rfl, rfl, rfl, rfl, fun hsome => ?_, fun _ => rfl⟩
      simp [hp] at hsome

/-- C6, witness: the path-carrying fixture keeps its own nodes and gets the
new path; the pathless fixture (with no nodes) falls back to the supplied
nodes. -/
theorem relocatedError_preserves_fields_witness :
    ((relocatedError errAB none (some [.key "z"])).path = some [.key "z"] ∧
     (relocatedError errAB none (some [.key "z"])).extensions = errAB.extensions) ∧
    (relocatedError errNoPath (some [⟨5⟩]) (some [.key "z"])).nodes =
      Option.or errNoPath.nodes (some [⟨5⟩]) :=
  ⟨⟨(relocatedError_preserves_fields errAB none [.key "z"]).2.2.2.2.1,
    (relocatedError_preserves_fields errAB none [.key "z"]).2.2.2.1⟩,
   (relocatedError_preserves_fields errNoPath (some [⟨5⟩]) [.key "z"]).2.2.2.2.2.2
     rfl⟩

/-- C8: `combineErrors` of a one-element list is a pass-through copy equal
to the member in message, path, and extensions; of a longer list it is the
aggregate error whose message is the newline join of the member messages in
order and whose member list is the input list unchanged — in the
two-element case the message is literally `e1.message ++ "\n" ++
e2.message`. -/
theorem combineErrors_shape (e e1 e2 : JSError) (rest : List JSError) :
    (∃ r, combineErrors [e] = .gqlError r ∧ r.message = e.message ∧
      r.path = e.path ∧ r.extensions = e.extensions) ∧
    combineErrors (e1 :: e2 :: rest) =
      .combined (joinSep "\n" ((e1 :: e2 :: rest).map (fun x => x.message)))
        (e1 :: e2 :: rest) ∧
    combineErrors [e1, e2] =
      .combined (e1.message ++ "\n" ++ e2.message) [e1, e2] := by
  refine ⟨⟨mkGraphQLError e.message e.nodes e.source e.positions e.path none
      e.extensions, rfl, rfl, rfl, ?_⟩, rfl, rfl⟩
  cases he : e.extensions <;> simp [mkGraphQLError, he]

/-- C10, counterexample: a value that already carries an error tag does NOT
keep "every property it had before the call": re-tagging overwrites the
`ERROR_SYMBOL` property with the new (here empty) relocated list, so the
prior tag value is lost — the two tag keys are not merely "added". -/
theorem createMergedResult_tag_overwrite_cex :
    errTagOf (.obj 4 [] false (some [errC]) none) = some [errC] ∧
    errTagOf (createMergedResult (.obj 4 [] false (some [errC]) none) [] []) =
      some [] ∧
    some [errC] ≠ (some [] : Option (List JSError)) :=
  ⟨rfl, rfl, by decide⟩

/-- C10, amended: tagging a non-null, non-array object returns the very
same object (identity tag preserved — the source mutates `result` in place
and returns it): every string-keyed property and the null-marker slot keep
their prior values, and the two symbol-keyed tag slots are set to the
relocated error list and the subschema list, overwriting any tags already
present. -/
theorem createMergedResult_object_in_place (i : Nat)
    (props : List (String × JSValue)) (mn : Bool) (et : Option (List JSError))
    (st : Option (List Subschema)) (es : List JSError) (ss : List Subschema) :
    createMergedResult (.obj i props mn et st) es ss =
      .obj i props mn (some (es.map relocOne)) (some ss) ∧
    objIdOf (createMergedResult (.obj i props mn et st) es ss) = some i ∧
    propsOf (createMergedResult (.obj i props mn et st) es ss) = props ∧
    mergedNullOf (createMergedResult (.obj i props mn et st) es ss) = mn ∧
    errTagOf (createMergedResult (.obj i props mn et st) es ss) =
      some (es.map relocOne) ∧
    subTagOf (createMergedResult (.obj i props mn et st) es ss) = some ss := by
  refine ⟨by simp [createMergedResult], ?_, ?_, ?_, ?_, ?_⟩ <;>
    simp [createMergedResult, objIdOf, propsOf, mergedNullOf, errTagOf, subTagOf]

/-!
Helper lemmas, part 2: the argument-injection state invariant and the
shape of the transform's successful results.
-/

theorem injectArgStep_inv (orig : List String) (args : List (String × JSValue))
    (st st' : OpProcState) (na na' : List (String × ArgumentNode))
    (argument : GQLArgument)
    (h : injectArgStep args st na argument = .ok (st', na'))
    (hinv : OpInv orig st) : OpInv orig st' := by
  unfold injectArgStep at h
  split at h
  · simp only [Except.ok.injEq, Prod.mk.injEq] at h
    obtain ⟨h1, _⟩ := h
    exact h1 ▸ hinv
  · rename_i argValue hl
    split at h
    · cases h
    · rename_i typeAst ht
      split at h
      · cases h
      · rename_i serialized hs
        simp only [Except.ok.injEq, Prod.mk.injEq] at h
        obtain ⟨h1, _⟩ := h
        obtain ⟨hex, hnd, hdisj, hnames⟩ := hinv
        have hfresh : (generateVariableName st.existingVariables argument.name
            st.variableCounter).1 ∉ st.existingVariables :=
          generateVariableName_fresh _ _ _
        have hnkeys : (generateVariableName st.existingVariables argument.name
            st.variableCounter).1 ∉ st.variablesDict.map Prod.fst := by
          intro hmem
          have hmem' := List.mem_append_right orig hmem
          rw [← hex] at hmem'
          exact hfresh hmem'
        have hnorig : (generateVariableName st.existingVariables argument.name
            st.variableCounter).1 ∉ orig := by
          intro hmem
          have hmem' := List.mem_append_left (st.variablesDict.map Prod.fst) hmem
          rw [← hex] at hmem'
          exact hfresh hmem'
        have hset := dictSet_of_not_mem_keys st.variablesDict
          (generateVariableName st.existingVariables argument.name
            st.variableCounter).1
          ⟨(generateVariableName st.existingVariables argument.name
              st.variableCounter).1, typeAst⟩ hnkeys
        subst h1
        refine ⟨?_, ?_, ?_, ?_⟩
        · simp only [hset, List.map_append, List.map_cons, List.map_nil]
          rw [hex, List.append_assoc]
        · simp only [hset, List.map_append, List.map_cons, List.map_nil]
          exact List.Nodup.append hnd (List.nodup_singleton _)
            (fun a ha hb => by
              simp only [List.mem_singleton] at hb
              exact hnkeys (hb ▸ ha))
        · simp only [hset, List.map_append, List.map_cons, List.map_nil]
          intro m hm
          rcases List.mem_append.mp hm with hm | hm
          · exact hdisj m hm
          · simp only [List.mem_singleton] at hm
            exact hm ▸ hnorig
        · simp only [hset]
          intro kv hkv
          rcases List.mem_append.mp hkv with hkv | hkv
          · exact hnames kv hkv
          · simp only [List.mem_singleton] at hkv
            subst hkv
            rfl

theorem injectArgs_inv (orig : List String) (args : List (String × JSValue)) :
    ∀ (schemaArgs : List GQLArgument) (st st' : OpProcState)
      (na na' : List (String × ArgumentNode)),
      injectArgs args schemaArgs st na = .ok (st', na') →
      OpInv orig st → OpInv orig st' := by
  intro schemaArgs
  induction schemaArgs with
  | nil =>
      intro st st' na na' h hinv
      unfold injectArgs at h
      simp only [Except.ok.injEq, Prod.mk.injEq] at h
      exact h.1 ▸ hinv
  | cons a rest ih =>
      intro st st' na na' h hinv
      unfold injectArgs at h
      split at h
      · cases h
      · rename_i r hstep
        exact ih _ _ _ _ h (injectArgStep_inv orig args st r.1 na r.2 a hstep hinv)

theorem processSelections_inv (orig : List String)
    (typeFields : List (String × GQLField)) (args : List (String × JSValue)) :
    ∀ (selections : List SelectionNode) (st st' : OpProcState)
      (acc sel' : List SelectionNode),
      processSelections typeFields args selections st acc = .ok (st', sel') →
      OpInv orig st → OpInv orig st' := by
  intro selections
  induction selections with
  | nil =>
      intro st st' acc sel' h hinv
      unfold processSelections at h
      simp only [Except.ok.injEq, Prod.mk.injEq] at h
      exact h.1 ▸ hinv
  | cons s rest ih =>
      intro st st' acc sel' h hinv
      cases s with
      | nonField t =>
          unfold processSelections at h
          exact ih _ _ _ _ h hinv
      | field f =>
          unfold processSelections at h
          split at h
          · cases h
          · rename_i fieldDef hfield
            split at h
            · cases h
            · rename_i r hargs
              exact ih _ _ _ _ h
                (injectArgs_inv orig args fieldDef.args st r.1 _ r.2 hargs hinv)

theorem processOperation_ok_shape (targetSchema : GQLSchema)
    (args : List (String × JSValue)) (vn : List (String × String))
    (nv : List (String × JSValue)) (operation newOp : OperationDefinitionNode)
    (vn' : List (String × String)) (nv' : List (String × JSValue))
    (h : processOperation targetSchema args vn nv operation = .ok (newOp, vn', nv')) :
    ∃ st sel,
      newOp = { operation with
                  variableDefinitions :=
                    operation.variableDefinitions ++ st.variablesDict.map Prod.snd
                  selectionSet := sel } ∧
      OpInv (operation.variableDefinitions.map (fun vd => vd.varName)) st := by
  unfold processOperation at h
  split at h
  · cases h
  · rename_i type hroot
    split at h
    · cases h
    · rename_i r hsel
      simp only [Except.ok.injEq, Prod.mk.injEq] at h
      obtain ⟨h1, _⟩ := h
      refine ⟨r.1, r.2, h1.symm, ?_⟩
      refine processSelections_inv _ _ _ _ _ _ _ _ hsel ⟨?_, ?_, ?_, ?_⟩
      · simp
      · simp
      · simp
      · simp

/-- C7: within one rewritten operation, the generated variable names — the
variable definitions appended after the operation's pre-existing ones — are
pairwise distinct and distinct from every pre-existing variable name,
whatever names (including colliding `_v…` seeds) were already declared. -/
theorem addArguments_generated_names_unique (targetSchema : GQLSchema)
    (args : List (String × JSValue)) (vn : List (String × String))
    (nv : List (String × JSValue)) (operation newOp : OperationDefinitionNode)
    (vn' : List (String × String)) (nv' : List (String × JSValue))
    (h : processOperation targetSchema args vn nv operation = .ok (newOp, vn', nv')) :
    ((newOp.variableDefinitions.map (fun vd => vd.varName)).drop
        operation.variableDefinitions.length).Nodup ∧
    ∀ n ∈ (newOp.variableDefinitions.map (fun vd => vd.varName)).drop
        operation.variableDefinitions.length,
      n ∉ operation.variableDefinitions.map (fun vd => vd.varName) := by
  obtain ⟨st, sel, hshape, hinv⟩ :=
    processOperation_ok_shape targetSchema args vn nv operation newOp vn' nv' h
  obtain ⟨_, hnd, hdisj, hnames⟩ := hinv
  have hkeys : (st.variablesDict.map Prod.snd).map (fun vd => vd.varName) =
      st.variablesDict.map Prod.fst := by
    rw [List.map_map]
    exact List.map_congr_left (fun kv hkv => hnames kv hkv)
  have hdrop : (newOp.variableDefinitions.map (fun vd => vd.varName)).drop
      operation.variableDefinitions.length = st.variablesDict.map Prod.fst := by
    rw [hshape]
    simp only [List.map_append]
    have hlen : operation.variableDefinitions.length =
        (operation.variableDefinitions.map (fun vd => vd.varName)).length := by
      simp
    rw [hlen, List.drop_left, hkeys]
  rw [hdrop]
  exact ⟨hnd, hdisj⟩

/-- C7, witness: the fixture operation already declares `_v0_limit`, and the
two injected arguments receive the fresh names `_v1_limit` and `_v2_skip`. -/
theorem addArguments_generated_names_unique_witness :
    (processOperation demoSchema demoArgs [] [] demoOp = .ok
      ({ operation := .query
         variableDefinitions :=
           [{ varName := "_v0_limit", type := .namedType "Int" },
            { varName := "_v1_limit", type := .namedType "Int" },
            { varName := "_v2_skip", type := .nonNullType (.namedType "Int") }]
         selectionSet :=
           [.field { name := "items"
                     arguments :=
                       [{ name := "limit", value := .variableNode "_v1_limit" },
                        { name := "skip", value := .variableNode "_v2_skip" }]
                     rest := 0 }]
         rest := 3 },
       [("limit", "_v1_limit"), ("skip", "_v2_skip")],
       [("_v1_limit", .prim (.num 5)), ("_v2_skip", .prim (.num 2))])) ∧
    ((({ operation := .query
         variableDefinitions :=
           [{ varName := "_v0_limit", type := .namedType "Int" },
            { varName := "_v1_limit", type := .namedType "Int" },
            { varName := "_v2_skip", type := .nonNullType (.namedType "Int") }]
         selectionSet :=
           [.field { name := "items"
                     arguments :=
                       [{ name := "limit", value := .variableNode "_v1_limit" },
                        { name := "skip", value := .variableNode "_v2_skip" }]
                     rest := 0 }]
         rest := 3 } : OperationDefinitionNode).variableDefinitions.map
            (fun vd => vd.varName)).drop
        demoOp.variableDefinitions.length).Nodup ∧
    ∀ n ∈ (({ operation := .query
              variableDefinitions :=
                [{ varName := "_v0_limit", type := .namedType "Int" },
                 { varName := "_v1_limit", type := .namedType "Int" },
                 { varName := "_v2_skip", type := .nonNullType (.namedType "Int") }]
              selectionSet :=
                [.field { name := "items"
                          arguments :=
                            [{ name := "limit", value := .variableNode "_v1_limit" },
                             { name := "skip", value := .variableNode "_v2_skip" }]
                          rest := 0 }]
              rest := 3 } : OperationDefinitionNode).variableDefinitions.map
                 (fun vd => vd.varName)).drop
             demoOp.variableDefinitions.length,
      n ∉ demoOp.variableDefinitions.map (fun vd => vd.varName) := by
  refine ⟨rfl, ?_⟩
  exact addArguments_generated_names_unique demoSchema demoArgs [] [] demoOp _ _ _ rfl

theorem processOperation_preserves (targetSchema : GQLSchema)
    (args : List (String × JSValue)) (vn : List (String × String))
    (nv : List (String × JSValue)) (operation newOp : OperationDefinitionNode)
    (vn' : List (String × String)) (nv' : List (String × JSValue))
    (h : processOperation targetSchema args vn nv operation = .ok (newOp, vn', nv')) :
    newOp.operation = operation.operation ∧ newOp.rest = operation.rest ∧
    ∃ extra, newOp.variableDefinitions = operation.variableDefinitions ++ extra := by
  obtain ⟨st, sel, hshape, _⟩ :=
    processOperation_ok_shape targetSchema args vn nv operation newOp vn' nv' h
  rw [hshape]
  exact ⟨rfl, rfl, st.variablesDict.map Prod.snd, rfl⟩

theorem processOperations_forall₂ (targetSchema : GQLSchema)
    (args : List (String × JSValue)) :
    ∀ (ops : List OperationDefinitionNode) (vn : List (String × String))
      (nv : List (String × JSValue))
      (out : List OperationDefinitionNode × List (String × String) × List (String × JSValue)),
      processOperations targetSchema args vn nv ops = .ok out →
      List.Forall₂
        (fun op' op =>
          op'.operation = op.operation ∧ op'.rest = op.rest ∧
          ∃ extra, op'.variableDefinitions = op.variableDefinitions ++ extra)
        out.1 ops := by
  intro ops
  induction ops with
  | nil =>
      intro vn nv out h
      unfold processOperations at h
      simp only [Except.ok.injEq] at h
      rw [← h]
      exact List.Forall₂.nil
  | cons op rest ih =>
      intro vn nv out h
      unfold processOperations at h
      split at h
      · cases h
      · rename_i r hop
        split at h
        · cases h
        · rename_i rs hrest
          simp only [Except.ok.injEq] at h
          rw [← h]
          exact List.Forall₂.cons
            (processOperation_preserves targetSchema args vn nv op r.1 r.2.1 r.2.2
              (by simpa using hop))
            (ih _ _ _ hrest)

theorem lookupOpt_spread (nv : List (String × JSValue)) :
    ∀ (acc : List (String × JSValue)) (k : String), k ∉ nv.map Prod.fst →
      lookupOpt (nv.foldl (fun a kv => dictSet a kv.1 kv.2) acc) k =
        lookupOpt acc k := by
  induction nv with
  | nil => intro acc k _; rfl
  | cons kv rest ih =>
      intro acc k hk
      simp only [List.map_cons, List.mem_cons] at hk
      push_neg at hk
      rw [List.foldl_cons, ih _ k hk.2,
        lookupOpt_dictSet_ne acc k kv.1 kv.2 (fun hq => hk.1 hq.symm)]

/-- C9: a successful `transformRequest` returns a freshly constructed
`Request`: its document is rebuilt (same remaining slots) from the
transformed operations followed by the original fragment definitions taken
over unchanged; each transformed operation keeps the original's kind,
remaining slots, and its original variable definitions as a leading
segment; and every entry of the original variables mapping whose key is not
one of the newly generated variable names is read back unchanged from the
returned mapping.  The source writes only to objects it allocates itself —
the embedding is a pure function of the original request, which is left
unchanged. -/
theorem transformRequest_fresh_request (schema : GQLSchema)
    (args : List (String × JSValue)) (r r' : Request)
    (h : transformRequest schema args r = .ok r') :
    ∃ newOps nv,
      addVariablesToRootField schema r.document args = .ok (r'.document, nv) ∧
      r'.document.rest = r.document.rest ∧
      r'.document.definitions =
        newOps.map DefinitionNode.operationDef ++
          r.document.definitions.filter isFragmentDef ∧
      List.Forall₂
        (fun op' op =>
          op'.operation = op.operation ∧ op'.rest = op.rest ∧
          ∃ extra, op'.variableDefinitions = op.variableDefinitions ++ extra)
        newOps (r.document.definitions.filterMap asOperationDef) ∧
      ∀ k, k ∉ nv.map Prod.fst →
        lookupOpt r'.variablesMap k = lookupOpt r.variablesMap k := by
  unfold transformRequest at h
  split at h
  · cases h
  · rename_i pr hadd
    simp only [Except.ok.injEq] at h
    have hadd' := hadd
    unfold addVariablesToRootField at hadd'
    split at hadd'
    · cases hadd'
    · rename_i triple hops
      simp only [Except.ok.injEq] at hadd'
      refine ⟨triple.1, pr.2, ?_, ?_, ?_, ?_, ?_⟩
      · rw [← h, hadd]
      · rw [← h, ← hadd']
      · rw [← h, ← hadd']
      · have := processOperations_forall₂ schema args
          (r.document.definitions.filterMap asOperationDef) [] [] triple hops
        exact this
      · intro k hk
        rw [← h]
        have hnv : pr.2 = triple.2.2 := by rw [← hadd']
        rw [hnv] at hk ⊢
        exact lookupOpt_spread triple.2.2 r.variablesMap k hk

/-- C9, witness: the fixture request (one operation, one fragment, one
pre-existing variable binding) transforms successfully; its untouched
variable `x` reads back unchanged and the fragment definition survives. -/
theorem transformRequest_fresh_request_witness :
    (transformRequest demoSchema demoArgs demoReq = .ok demoReqOut) ∧
    ∃ newOps nv,
      addVariablesToRootField demoSchema demoReq.document demoArgs = .ok
        (demoReqOut.document, nv) ∧
      demoReqOut.document.rest = demoReq.document.rest ∧
      demoReqOut.document.definitions =
        newOps.map DefinitionNode.operationDef ++
          demoReq.document.definitions.filter isFragmentDef ∧
      List.Forall₂
        (fun op' op =>
          op'.operation = op.operation ∧ op'.rest = op.rest ∧
          ∃ extra, op'.variableDefinitions = op.variableDefinitions ++ extra)
        newOps (demoReq.document.definitions.filterMap asOperationDef) ∧
      ∀ k, k ∉ nv.map Prod.fst →
        lookupOpt demoReqOut.variablesMap k = lookupOpt demoReq.variablesMap k := by
  refine ⟨rfl, ?_⟩
  exact transformRequest_fresh_request demoSchema demoArgs demoReq demoReqOut rfl
